import Mathlib

/-!
Verification of the ockam_api envelope module: the `Request`, `Response` and
`Error` envelope headers, the `Method`/`Status` enumerations, the `TypeTag`
scheme, the `CowStr`/`CowBytes` borrow-preserving wrappers, the path-segment
parser `Segments::parse` and the `RequestBuilder`/`ResponseBuilder` encode
pipeline.  Envelope values are embedded as Lean structures; the wire format is
embedded at the level of self-describing CBOR items (the byte-level codec is an
external collaborator of the module).  Randomness used by `Id::fresh` is passed
explicitly: constructors that draw a fresh id in Rust take the drawn id as an
argument here.
-/

namespace OckamApi

/-- Request methods (enum `Method`, wire codes 0..4 via `index_only`). -/
inductive Method where
  | Get
  | Post
  | Put
  | Delete
  | Patch
deriving DecidableEq, Repr

/-- The wire code of a known method (`#[n(k)]` indices in the source). -/
def Method.code : Method → Nat
  | .Get => 0
  | .Post => 1
  | .Put => 2
  | .Delete => 3
  | .Patch => 4

/-- The method denoted by a wire code, if the code is known. -/
def Method.fromCode (n : Nat) : Option Method :=
  if n = 0 then some .Get
  else if n = 1 then some .Post
  else if n = 2 then some .Put
  else if n = 3 then some .Delete
  else if n = 4 then some .Patch
  else none

/-- Response status codes (enum `Status`, wire codes via `index_only`). -/
inductive Status where
  | Ok
  | BadRequest
  | Unauthorized
  | NotFound
  | MethodNotAllowed
  | InternalServerError
  | NotImplemented
deriving DecidableEq, Repr

/-- The wire code of a known status (`#[n(k)]` indices in the source). -/
def Status.code : Status → Nat
  | .Ok => 200
  | .BadRequest => 400
  | .Unauthorized => 401
  | .NotFound => 404
  | .MethodNotAllowed => 405
  | .InternalServerError => 500
  | .NotImplemented => 501

/-- The status denoted by a wire code, if the code is known. -/
def Status.fromCode (n : Nat) : Option Status :=
  if n = 200 then some .Ok
  else if n = 400 then some .BadRequest
  else if n = 401 then some .Unauthorized
  else if n = 404 then some .NotFound
  else if n = 405 then some .MethodNotAllowed
  else if n = 500 then some .InternalServerError
  else if n = 501 then some .NotImplemented
  else none

/-- A request/response identifier: `struct Id(u32)`.  The `u32` payload is a
natural number; decoding enforces the `u32` range. -/
structure Id where
  val : Nat
deriving DecidableEq, Repr

/-- A request header (`struct Request`); the zero-sized `TypeTag<7586022>`
field carries no data and is represented only in the encoding. -/
structure Request where
  id : Id
  path : String
  method : Option Method
  has_body : Bool
deriving DecidableEq, Repr

/-- The response header (`struct Response`). -/
structure Response where
  id : Id
  re : Id
  status : Option Status
  has_body : Bool
deriving DecidableEq, Repr

/-- An error type used in response bodies (`struct Error`). -/
structure Error where
  path : String
  method : Option Method
  message : Option String
deriving DecidableEq, Repr

/-- `Request::new(method, path, has_body)`: the fresh random id drawn by
`rand::random()` is passed explicitly. -/
def Request.new (fresh : Id) (method : Method) (path : String) (has_body : Bool) : Request :=
  { id := fresh, path := path, method := some method, has_body := has_body }

/-- `Response::new(re, status, has_body)`: the fresh random id is passed
explicitly. -/
def Response.new (fresh : Id) (re : Id) (status : Status) (has_body : Bool) : Response :=
  { id := fresh, re := re, status := some status, has_body := has_body }

/-- `Error::new(path)`. -/
def Error.new (path : String) : Error :=
  { path := path, method := none, message := none }

/-- `Error::with_method`. -/
def Error.with_method (e : Error) (m : Method) : Error :=
  { e with method := some m }

/-- `Error.with_message`. -/
def Error.with_message (e : Error) (m : String) : Error :=
  { e with message := some m }

/-! ## Path segments (`Segments::parse`) -/

/-- `str::trim_start_matches(c)`: remove every leading occurrence of `sep`. -/
def trimLeadingChar (sep : Char) : List Char → List Char
  | [] => []
  | c :: cs => if c = sep then trimLeadingChar sep cs else c :: cs

/-- Split a character list at the first occurrence of `sep`, if any. -/
def splitFirst (sep : Char) : List Char → Option (List Char × List Char)
  | [] => none
  | c :: cs =>
    if c = sep then some ([], cs)
    else
      match splitFirst sep cs with
      | none => none
      | some (a, b) => some (c :: a, b)

/-- `str::splitn(n, sep)`: at most `n` pieces; the `n`-th piece keeps any
remaining separators. -/
def splitnChar (n : Nat) (sep : Char) (cs : List Char) : List (List Char) :=
  match n with
  | 0 => []
  | 1 => [cs]
  | Nat.succ (Nat.succ m) =>
    match splitFirst sep cs with
    | none => [cs]
    | some (a, b) => a :: splitnChar (Nat.succ m) sep b

/-- `Segments::<N>::parse(s)`: if `s` starts with `'/'` the leading slashes are
removed by `trim_start_matches('/')`, then the remainder is split by
`splitn(N, '/')`.  The fixed-capacity `ArrayVec` is represented as a list
(capacity can never overflow because `splitn` yields at most `N` pieces). -/
def Segments.parse (N : Nat) (s : String) : List String :=
  let cs := s.data
  let trimmed := if cs.head? = some '/' then trimLeadingChar '/' cs else cs
  (splitnChar N '/' trimmed).map (fun l => String.mk l)

/-- Modelled from the spec: the parsing the claim text describes, stripping a
SINGLE leading slash (`strip a single leading '/' if present`) before
splitting.  Used only to compare the claim's wording with `Segments.parse`. -/
def stripOneLeading (sep : Char) (cs : List Char) : List Char :=
  match cs with
  | [] => []
  | c :: rest => if c = sep then rest else c :: rest

/-- Modelled from the spec: `Segments::parse` as the claim states it, with a
single leading separator stripped. -/
def Segments.parseSingleStrip (N : Nat) (s : String) : List String :=
  (splitnChar N '/' (stripOneLeading '/' s.data)).map (fun l => String.mk l)

/-! ## The wire model

The byte-level CBOR codec (minicbor) is an external collaborator; the spec
describes the wire format as a self-describing structured map of deterministic
key-value pairs, so the wire is embedded at the level of CBOR items and
envelope headers encode to association lists of numbered fields. -/

/-- A CBOR data item, at the granularity the envelope schema uses. -/
inductive CborItem where
  | uint (n : Nat)
  | text (s : String)
  | bool (b : Bool)
  | bytes (bs : List Nat)
  | map (entries : List (Nat × CborItem))

/-- Decoding errors of the envelope codec. -/
inductive DecodeError where
  | tagMismatch (expected observed : Nat)
  | decodeError
deriving DecidableEq, Repr

/-- `TypeTag::<N>::decode`: read an unsigned integer and compare it with the
expected constant `N`; on mismatch fail with an error carrying the expected
and observed values (source lines 151-160). -/
def TypeTag.decode (N n : Nat) : Except DecodeError Unit :=
  if N = n then Except.ok () else Except.error (DecodeError.tagMismatch N n)

/-- First-match lookup of a numbered field in an encoded map. -/
def lookupKey (k : Nat) : List (Nat × CborItem) → Option CborItem
  | [] => none
  | (k2, v) :: rest => if k2 = k then some v else lookupKey k rest

/-- Modelled from the spec: the type-tag field of an envelope map.  An absent
tag field is valid; a present tag must be an unsigned integer equal to the
expected constant, checked by `TypeTag.decode`. -/
def decodeTagField (expected : Nat) (item : Option CborItem) : Except DecodeError Unit :=
  match item with
  | none => Except.ok ()
  | some (.uint n) => TypeTag.decode expected n
  | some _ => Except.error DecodeError.decodeError

/-- Modelled from the spec: a required `u32` identifier field. -/
def decodeIdField (item : Option CborItem) : Except DecodeError Id :=
  match item with
  | some (.uint n) =>
    if n < 4294967296 then Except.ok ⟨n⟩ else Except.error DecodeError.decodeError
  | _ => Except.error DecodeError.decodeError

/-- Modelled from the spec: a required text field. -/
def decodeTextField (item : Option CborItem) : Except DecodeError String :=
  match item with
  | some (.text s) => Except.ok s
  | _ => Except.error DecodeError.decodeError

/-- Modelled from the spec: the optional method field.  An absent field and an
unrecognized numeric code both decode to `none` (forward compatibility); a
non-integer shape is a decode error. -/
def decodeMethodField (item : Option CborItem) : Except DecodeError (Option Method) :=
  match item with
  | none => Except.ok none
  | some (.uint n) => Except.ok (Method.fromCode n)
  | some _ => Except.error DecodeError.decodeError

/-- Modelled from the spec: the optional status field, with the same forward
compatibility rule as the method field. -/
def decodeStatusField (item : Option CborItem) : Except DecodeError (Option Status) :=
  match item with
  | none => Except.ok none
  | some (.uint n) => Except.ok (Status.fromCode n)
  | some _ => Except.error DecodeError.decodeError

/-- Modelled from the spec: an optional text field (the error message). -/
def decodeOptTextField (item : Option CborItem) : Except DecodeError (Option String) :=
  match item with
  | none => Except.ok none
  | some (.text s) => Except.ok (some s)
  | some _ => Except.error DecodeError.decodeError

/-- Modelled from the spec: a required boolean field. -/
def decodeBoolField (item : Option CborItem) : Except DecodeError Bool :=
  match item with
  | some (.bool b) => Except.ok b
  | _ => Except.error DecodeError.decodeError

/-- Modelled from the spec: the encoded request map
`{ ?0: 7586022, 1: id, 2: path, 3: method, 4: has_body }`; the tag is present
exactly when the `tag` feature is enabled and absent optional fields are
omitted from the map. -/
def Request.encodeMap (tagging : Bool) (r : Request) : List (Nat × CborItem) :=
  (if tagging then [(0, CborItem.uint 7586022)] else []) ++
  [(1, CborItem.uint r.id.val), (2, CborItem.text r.path)] ++
  (match r.method with
   | some m => [(3, CborItem.uint m.code)]
   | none => []) ++
  [(4, CborItem.bool r.has_body)]

/-- Modelled from the spec: the encoded response map
`{ ?0: 9750358, 1: id, 2: re, 3: status, 4: has_body }`. -/
def Response.encodeMap (tagging : Bool) (r : Response) : List (Nat × CborItem) :=
  (if tagging then [(0, CborItem.uint 9750358)] else []) ++
  [(1, CborItem.uint r.id.val), (2, CborItem.uint r.re.val)] ++
  (match r.status with
   | some s => [(3, CborItem.uint s.code)]
   | none => []) ++
  [(4, CborItem.bool r.has_body)]

/-- Modelled from the spec: the encoded error map
`{ ?0: 5359172, 1: path, ?2: method, ?3: message }`. -/
def Error.encodeMap (tagging : Bool) (e : Error) : List (Nat × CborItem) :=
  (if tagging then [(0, CborItem.uint 5359172)] else []) ++
  [(1, CborItem.text e.path)] ++
  (match e.method with
   | some m => [(2, CborItem.uint m.code)]
   | none => []) ++
  (match e.message with
   | some s => [(3, CborItem.text s)]
   | none => [])

/-- Modelled from the spec: decoding a request header map.  Unknown keys are
ignored, required fields are strict, optional fields are lenient, and when
tagging is disabled a present tag field is ignored. -/
def Request.decode (tagging : Bool) (m : List (Nat × CborItem)) : Except DecodeError Request := do
  if tagging then decodeTagField 7586022 (lookupKey 0 m)
  let id ← decodeIdField (lookupKey 1 m)
  let path ← decodeTextField (lookupKey 2 m)
  let method ← decodeMethodField (lookupKey 3 m)
  let hb ← decodeBoolField (lookupKey 4 m)
  pure { id := id, path := path, method := method, has_body := hb }

/-- Modelled from the spec: decoding a response header map. -/
def Response.decode (tagging : Bool) (m : List (Nat × CborItem)) : Except DecodeError Response := do
  if tagging then decodeTagField 9750358 (lookupKey 0 m)
  let id ← decodeIdField (lookupKey 1 m)
  let re ← decodeIdField (lookupKey 2 m)
  let status ← decodeStatusField (lookupKey 3 m)
  let hb ← decodeBoolField (lookupKey 4 m)
  pure { id := id, re := re, status := status, has_body := hb }

/-- Modelled from the spec: decoding an error map. -/
def Error.decode (tagging : Bool) (m : List (Nat × CborItem)) : Except DecodeError Error := do
  if tagging then decodeTagField 5359172 (lookupKey 0 m)
  let path ← decodeTextField (lookupKey 1 m)
  let method ← decodeMethodField (lookupKey 2 m)
  let message ← decodeOptTextField (lookupKey 3 m)
  pure { path := path, method := method, message := message }

/-! ## Builders -/

/-- `struct RequestBuilder<'a, T>` with header and optional body. -/
structure RequestBuilder (T : Type) where
  header : Request
  body : Option T
deriving Repr

/-- `struct ResponseBuilder<T>` with header and optional body. -/
structure ResponseBuilder (T : Type) where
  header : Response
  body : Option T
deriving Repr

/-- `Request::builder(method, path)`: header via `Request::new(..., false)`,
no body. -/
def Request.builder (fresh : Id) (method : Method) (path : String) : RequestBuilder Unit :=
  { header := Request.new fresh method path false, body := none }

/-- `Response::builder(re, status)`: header via `Response::new(..., false)`,
no body. -/
def Response.builder (fresh : Id) (re : Id) (status : Status) : ResponseBuilder Unit :=
  { header := Response.new fresh re status false, body := none }

/-- `RequestBuilder::body(b)`: attach a body and set `has_body` on the header
(the Rust method is also named `body`; Lean needs a name distinct from the
field). -/
def RequestBuilder.withBody {T : Type} (rb : RequestBuilder Unit) (b : T) : RequestBuilder T :=
  { header := { rb.header with has_body := true }, body := some b }

/-- `ResponseBuilder::body(b)`. -/
def ResponseBuilder.withBody {T : Type} (rb : ResponseBuilder Unit) (b : T) : ResponseBuilder T :=
  { header := { rb.header with has_body := true }, body := some b }

/-- `RequestBuilder::into_parts`. -/
def RequestBuilder.into_parts {T : Type} (rb : RequestBuilder T) : Request × Option T :=
  (rb.header, rb.body)

/-- `ResponseBuilder::into_parts`. -/
def ResponseBuilder.into_parts {T : Type} (rb : ResponseBuilder T) : Response × Option T :=
  (rb.header, rb.body)

/-- `RequestBuilder::encode(buf)`: write the header item into the sink, then,
if a body is present, encode it and write it after the header.  The sink `W`
and its fallible item write, and the body type's fallible encoding, are
parameters, as `Encoder<W: Write>` and `T: Encode<()>` are in the source. -/
def RequestBuilder.encode {T W E : Type} (write : W → CborItem → Except E W)
    (tagging : Bool) (encT : T → Except E CborItem)
    (rb : RequestBuilder T) (buf : W) : Except E W := do
  let buf1 ← write buf (CborItem.map (Request.encodeMap tagging rb.header))
  match rb.body with
  | none => pure buf1
  | some v => do
    let item ← encT v
    write buf1 item

/-- `ResponseBuilder::encode(buf)`. -/
def ResponseBuilder.encode {T W E : Type} (write : W → CborItem → Except E W)
    (tagging : Bool) (encT : T → Except E CborItem)
    (rb : ResponseBuilder T) (buf : W) : Except E W := do
  let buf1 ← write buf (CborItem.map (Response.encodeMap tagging rb.header))
  match rb.body with
  | none => pure buf1
  | some v => do
    let item ← encT v
    write buf1 item

/-- The infallible list sink: an item write appends the item, so the sink
records the exact order in which items were written. -/
def appendWrite (E : Type) : List CborItem → CborItem → Except E (List CborItem) :=
  fun w item => Except.ok (w ++ [item])

/-! ## Borrow-preserving wrappers -/

/-- A clone-on-write container: either a view borrowed from the source buffer
or an independently owned copy. -/
inductive Cow (α : Type) where
  | borrowed (a : α)
  | owned (a : α)
deriving DecidableEq, Repr

/-- The contained value, whichever storage mode holds it. -/
def Cow.value {α : Type} : Cow α → α
  | .borrowed a => a
  | .owned a => a

/-- `struct CowStr<'a>(Cow<'a, str>)`. -/
structure CowStr where
  val : Cow String
deriving DecidableEq, Repr

/-- `CowStr::is_borrowed`. -/
def CowStr.is_borrowed (c : CowStr) : Bool :=
  match c.val with
  | .borrowed _ => true
  | .owned _ => false

/-- `CowStr::to_owned`: an owned copy of the content, independent of the
source buffer. -/
def CowStr.to_owned (c : CowStr) : CowStr :=
  ⟨Cow.owned c.val.value⟩

/-- Modelled from the spec: the `Decode` impl of `CowStr` always borrows from
the input when the text is contiguous in the buffer. -/
def CowStr.decode (item : CborItem) : Except DecodeError CowStr :=
  match item with
  | .text s => Except.ok ⟨Cow.borrowed s⟩
  | _ => Except.error DecodeError.decodeError

/-- `struct CowBytes<'a>(Cow<'a, [u8]>)`. -/
structure CowBytes where
  val : Cow (List Nat)
deriving DecidableEq, Repr

/-- `CowBytes::is_borrowed`. -/
def CowBytes.is_borrowed (c : CowBytes) : Bool :=
  match c.val with
  | .borrowed _ => true
  | .owned _ => false

/-- `CowBytes::to_owned`. -/
def CowBytes.to_owned (c : CowBytes) : CowBytes :=
  ⟨Cow.owned c.val.value⟩

/-- Modelled from the spec: the `Decode` impl of `CowBytes` always borrows
from the input when the bytes are contiguous in the buffer. -/
def CowBytes.decode (item : CborItem) : Except DecodeError CowBytes :=
  match item with
  | .bytes bs => Except.ok ⟨Cow.borrowed bs⟩
  | _ => Except.error DecodeError.decodeError

/-! ## Helper lemmas -/

theorem method_fromCode_code (m : Method) : Method.fromCode m.code = some m := by
  cases m <;> rfl

theorem status_fromCode_code (s : Status) : Status.fromCode s.code = some s := by
  cases s <;> rfl

theorem method_fromCode_eq_none {n : Nat}
    (h : ¬(n = 0 ∨ n = 1 ∨ n = 2 ∨ n = 3 ∨ n = 4)) : Method.fromCode n = none := by
  push_neg at h
  obtain ⟨h0, h1, h2, h3, h4⟩ := h
  simp [Method.fromCode, h0, h1, h2, h3, h4]

theorem status_fromCode_eq_none {n : Nat}
    (h : ¬(n = 200 ∨ n = 400 ∨ n = 401 ∨ n = 404 ∨ n = 405 ∨ n = 500 ∨ n = 501)) :
    Status.fromCode n = none := by
  push_neg at h
  obtain ⟨h1, h2, h3, h4, h5, h6, h7⟩ := h
  simp [Status.fromCode, h1, h2, h3, h4, h5, h6, h7]

theorem request_decode_encodeMap (tagE tagD : Bool) (r : Request)
    (h : r.id.val < 4294967296) :
    Request.decode tagD (Request.encodeMap tagE r) = Except.ok r := by
  obtain ⟨⟨idv⟩, path, method, hb⟩ := r
  simp only [Id.mk.injEq] at h
  cases tagE <;> cases tagD <;> cases method <;>
    simp [Request.decode, Request.encodeMap, lookupKey, decodeTagField, decodeIdField,
      decodeTextField, decodeMethodField, decodeBoolField, TypeTag.decode,
      method_fromCode_code, h, Bind.bind, Except.bind, Pure.pure, Except.pure]

theorem response_decode_encodeMap (tagE tagD : Bool) (r : Response)
    (h1 : r.id.val < 4294967296) (h2 : r.re.val < 4294967296) :
    Response.decode tagD (Response.encodeMap tagE r) = Except.ok r := by
  obtain ⟨⟨idv⟩, ⟨rev⟩, status, hb⟩ := r
  simp only [Id.mk.injEq] at h1 h2
  cases tagE <;> cases tagD <;> cases status <;>
    simp [Response.decode, Response.encodeMap, lookupKey, decodeTagField, decodeIdField,
      decodeStatusField, decodeBoolField, TypeTag.decode,
      status_fromCode_code, h1, h2, Bind.bind, Except.bind, Pure.pure, Except.pure]

theorem error_decode_encodeMap (tagE tagD : Bool) (e : Error) :
    Error.decode tagD (Error.encodeMap tagE e) = Except.ok e := by
  obtain ⟨path, method, message⟩ := e
  cases tagE <;> cases tagD <;> cases method <;> cases message <;>
    simp [Error.decode, Error.encodeMap, lookupKey, decodeTagField, decodeTextField,
      decodeMethodField, decodeOptTextField, TypeTag.decode,
      method_fromCode_code, Bind.bind, Except.bind, Pure.pure, Except.pure]

/-! ## Claims -/

/-- Claim C1: for every valid `Request`, `Response` and `Error` value `x`
(including values whose optional fields `method`/`status`/`message` are
absent) and either setting of the tag feature, decoding the map produced by
encoding `x` yields exactly `x` field-for-field. -/
theorem c1_roundtrip :
    ∀ tagging : Bool,
      (∀ r : Request, r.id.val < 4294967296 →
        Request.decode tagging (Request.encodeMap tagging r) = Except.ok r) ∧
      (∀ r : Response, r.id.val < 4294967296 → r.re.val < 4294967296 →
        Response.decode tagging (Response.encodeMap tagging r) = Except.ok r) ∧
      (∀ e : Error, Error.decode tagging (Error.encodeMap tagging e) = Except.ok e) := by
  intro tagging
  exact ⟨fun r h => request_decode_encodeMap tagging tagging r h,
         fun r h1 h2 => response_decode_encodeMap tagging tagging r h1 h2,
         fun e => error_decode_encodeMap tagging tagging e⟩

/-- Witness for C1 at concrete envelopes, one with optional fields present and
one with them absent. -/
theorem c1_roundtrip_witness :
    Request.decode true
        (Request.encodeMap true
          { id := ⟨7⟩, path := "/nodes", method := some Method.Get, has_body := true })
      = Except.ok
          { id := ⟨7⟩, path := "/nodes", method := some Method.Get, has_body := true } ∧
    Response.decode false
        (Response.encodeMap false
          { id := ⟨1⟩, re := ⟨2⟩, status := none, has_body := false })
      = Except.ok { id := ⟨1⟩, re := ⟨2⟩, status := none, has_body := false } ∧
    Error.decode true
        (Error.encodeMap true { path := "p", method := none, message := none })
      = Except.ok { path := "p", method := none, message := none } :=
  ⟨(c1_roundtrip true).1 _ (by decide),
   (c1_roundtrip false).2.1 _ (by decide) (by decide),
   (c1_roundtrip true).2.2 _⟩

/-- Claim C2: a request (resp. response) header map whose method (resp.
status) field carries a numeric code outside the known set {0,1,2,3,4}
(resp. {200,400,401,404,405,500,501}) decodes successfully, with `none` for
that optional field, instead of failing the whole decode. -/
theorem c2_forward_compat :
    ∀ (tagging : Bool) (idn ren : Nat) (path : String) (hb : Bool) (cm cs : Nat),
      idn < 4294967296 → ren < 4294967296 →
      ¬(cm = 0 ∨ cm = 1 ∨ cm = 2 ∨ cm = 3 ∨ cm = 4) →
      ¬(cs = 200 ∨ cs = 400 ∨ cs = 401 ∨ cs = 404 ∨ cs = 405 ∨ cs = 500 ∨ cs = 501) →
      Request.decode tagging
          [(1, CborItem.uint idn), (2, CborItem.text path),
           (3, CborItem.uint cm), (4, CborItem.bool hb)]
        = Except.ok { id := ⟨idn⟩, path := path, method := none, has_body := hb } ∧
      Response.decode tagging
          [(1, CborItem.uint idn), (2, CborItem.uint ren),
           (3, CborItem.uint cs), (4, CborItem.bool hb)]
        = Except.ok { id := ⟨idn⟩, re := ⟨ren⟩, status := none, has_body := hb } := by
  intro tagging idn ren path hb cm cs h1 h2 hm hs
  constructor <;> cases tagging <;>
    simp [Request.decode, Response.decode, lookupKey, decodeTagField, decodeIdField,
      decodeTextField, decodeMethodField, decodeStatusField, decodeBoolField,
      method_fromCode_eq_none hm, status_fromCode_eq_none hs, h1, h2,
      Bind.bind, Except.bind, Pure.pure, Except.pure]

/-- Witness for C2: code 9 is no method, code 999 is no status, yet the
headers decode with the optional field absent. -/
theorem c2_forward_compat_witness :
    Request.decode true
        [(1, CborItem.uint 5), (2, CborItem.text "x"),
         (3, CborItem.uint 9), (4, CborItem.bool false)]
      = Except.ok { id := ⟨5⟩, path := "x", method := none, has_body := false } ∧
    Response.decode true
        [(1, CborItem.uint 5), (2, CborItem.uint 6),
         (3, CborItem.uint 999), (4, CborItem.bool false)]
      = Except.ok { id := ⟨5⟩, re := ⟨6⟩, status := none, has_body := false } :=
  c2_forward_compat true 5 6 "x" false 9 999
    (by decide) (by decide) (by decide) (by decide)

/-- Claim C3: with tagging enabled, `TypeTag::<N>::decode` of an unsigned
integer `n` succeeds exactly when `n = N`; on mismatch it fails with a
tag-mismatch error carrying the expected `N` and the observed `n`; and an
envelope map containing no tag field at all still decodes successfully. -/
theorem c3_typetag :
    (∀ N n : Nat, TypeTag.decode N n = Except.ok () ↔ n = N) ∧
    (∀ N n : Nat, n ≠ N →
      TypeTag.decode N n = Except.error (DecodeError.tagMismatch N n)) ∧
    (∀ r : Request, r.id.val < 4294967296 →
      Request.decode true (Request.encodeMap false r) = Except.ok r) ∧
    (∀ r : Response, r.id.val < 4294967296 → r.re.val < 4294967296 →
      Response.decode true (Response.encodeMap false r) = Except.ok r) ∧
    (∀ e : Error, Error.decode true (Error.encodeMap false e) = Except.ok e) := by
  refine ⟨?_, ?_, ?_, ?_, ?_⟩
  · intro N n
    unfold TypeTag.decode
    split
    · simp_all [eq_comm]
    · simp_all [eq_comm]
  · intro N n h
    unfold TypeTag.decode
    split
    · simp_all
    · rfl
  · exact fun r h => request_decode_encodeMap false true r h
  · exact fun r h1 h2 => response_decode_encodeMap false true r h1 h2
  · exact fun e => error_decode_encodeMap false true e

/-- Witness for C3: the request tag constant accepted, a wrong tag rejected
with both values reported, and a tagless request map decoded under tagging. -/
theorem c3_typetag_witness :
    TypeTag.decode 7586022 7586022 = Except.ok () ∧
    TypeTag.decode 7586022 9750358
      = Except.error (DecodeError.tagMismatch 7586022 9750358) ∧
    Request.decode true
        (Request.encodeMap false
          { id := ⟨3⟩, path := "a", method := some Method.Post, has_body := false })
      = Except.ok { id := ⟨3⟩, path := "a", method := some Method.Post, has_body := false } :=
  ⟨(c3_typetag.1 7586022 7586022).mpr rfl,
   c3_typetag.2.1 7586022 9750358 (by decide),
   c3_typetag.2.2.1 _ (by decide)⟩

/-- Claim C4: attaching a body to any builder sets `has_body` on its header;
a builder that was never given a body has `has_body = false` and its encode
writes the header item alone, with no trailing body item. -/
theorem c4_has_body :
    (∀ (T : Type) (rb : RequestBuilder Unit) (v : T),
      ((rb.withBody v).header).has_body = true) ∧
    (∀ (T : Type) (rb : ResponseBuilder Unit) (v : T),
      ((rb.withBody v).header).has_body = true) ∧
    (∀ (fresh : Id) (m : Method) (path : String),
      (Request.builder fresh m path).header.has_body = false ∧
      (Request.builder fresh m path).body = none) ∧
    (∀ (fresh re : Id) (st : Status),
      (Response.builder fresh re st).header.has_body = false ∧
      (Response.builder fresh re st).body = none) ∧
    (∀ (E : Type) (tagging : Bool) (encT : Unit → Except E CborItem)
        (rb : RequestBuilder Unit) (buf : List CborItem),
      rb.body = none →
      rb.encode (appendWrite E) tagging encT buf
        = Except.ok (buf ++ [CborItem.map (Request.encodeMap tagging rb.header)])) ∧
    (∀ (E : Type) (tagging : Bool) (encT : Unit → Except E CborItem)
        (rb : ResponseBuilder Unit) (buf : List CborItem),
      rb.body = none →
      rb.encode (appendWrite E) tagging encT buf
        = Except.ok (buf ++ [CborItem.map (Response.encodeMap tagging rb.header)])) := by
  refine ⟨fun T rb v => rfl, fun T rb v => rfl,
          fun fresh m path => ⟨rfl, rfl⟩, fun fresh re st => ⟨rfl, rfl⟩, ?_, ?_⟩
  · intro E tagging encT rb buf h
    simp [RequestBuilder.encode, appendWrite, h, Bind.bind, Except.bind, Pure.pure,
      Except.pure]
  · intro E tagging encT rb buf h
    simp [ResponseBuilder.encode, appendWrite, h, Bind.bind, Except.bind, Pure.pure,
      Except.pure]

/-- Witness for C4 at concrete builders: a body sets `has_body`; the bodyless
builders encode to a single header item with `has_body` false. -/
theorem c4_has_body_witness :
    ((Request.builder ⟨1⟩ Method.Get "p").withBody (42 : Nat)).header.has_body = true ∧
    ((Response.builder ⟨1⟩ ⟨2⟩ Status.Ok).withBody (42 : Nat)).header.has_body = true ∧
    (Request.builder ⟨1⟩ Method.Get "p").header.has_body = false ∧
    (Response.builder ⟨1⟩ ⟨2⟩ Status.Ok).header.has_body = false ∧
    (Request.builder ⟨1⟩ Method.Get "p").encode (appendWrite Nat) true
        (fun _ => Except.ok (CborItem.bool true)) []
      = Except.ok
          [CborItem.map (Request.encodeMap true (Request.builder ⟨1⟩ Method.Get "p").header)] ∧
    (Response.builder ⟨1⟩ ⟨2⟩ Status.Ok).encode (appendWrite Nat) true
        (fun _ => Except.ok (CborItem.bool true)) []
      = Except.ok
          [CborItem.map (Response.encodeMap true (Response.builder ⟨1⟩ ⟨2⟩ Status.Ok).header)] :=
  ⟨c4_has_body.1 Nat _ 42, c4_has_body.2.1 Nat _ 42,
   (c4_has_body.2.2.1 ⟨1⟩ Method.Get "p").1, (c4_has_body.2.2.2.1 ⟨1⟩ ⟨2⟩ Status.Ok).1,
   c4_has_body.2.2.2.2.1 Nat true _ _ [] rfl,
   c4_has_body.2.2.2.2.2 Nat true _ _ [] rfl⟩

/-- Claim C5: a builder with a body writes the serialized header first and the
serialized body immediately after into the same sink, in that fixed order; and
a failure of the header write or of the body encoding is returned unchanged. -/
theorem c5_encode_order :
    (∀ (T E : Type) (tagging : Bool) (encT : T → Except E CborItem)
        (rb : RequestBuilder T) (buf : List CborItem) (v : T) (bi : CborItem),
      rb.body = some v → encT v = Except.ok bi →
      rb.encode (appendWrite E) tagging encT buf
        = Except.ok (buf ++ [CborItem.map (Request.encodeMap tagging rb.header), bi])) ∧
    (∀ (T W E : Type) (write : W → CborItem → Except E W) (tagging : Bool)
        (encT : T → Except E CborItem) (rb : RequestBuilder T) (buf : W) (err : E),
      write buf (CborItem.map (Request.encodeMap tagging rb.header)) = Except.error err →
      rb.encode write tagging encT buf = Except.error err) ∧
    (∀ (T W E : Type) (write : W → CborItem → Except E W) (tagging : Bool)
        (encT : T → Except E CborItem) (rb : RequestBuilder T) (buf buf1 : W)
        (v : T) (err : E),
      rb.body = some v →
      write buf (CborItem.map (Request.encodeMap tagging rb.header)) = Except.ok buf1 →
      encT v = Except.error err →
      rb.encode write tagging encT buf = Except.error err) ∧
    (∀ (T E : Type) (tagging : Bool) (encT : T → Except E CborItem)
        (rb : ResponseBuilder T) (buf : List CborItem) (v : T) (bi : CborItem),
      rb.body = some v → encT v = Except.ok bi →
      rb.encode (appendWrite E) tagging encT buf
        = Except.ok (buf ++ [CborItem.map (Response.encodeMap tagging rb.header), bi])) ∧
    (∀ (T W E : Type) (write : W → CborItem → Except E W) (tagging : Bool)
        (encT : T → Except E CborItem) (rb : ResponseBuilder T) (buf : W) (err : E),
      write buf (CborItem.map (Response.encodeMap tagging rb.header)) = Except.error err →
      rb.encode write tagging encT buf = Except.error err) ∧
    (∀ (T W E : Type) (write : W → CborItem → Except E W) (tagging : Bool)
        (encT : T → Except E CborItem) (rb : ResponseBuilder T) (buf buf1 : W)
        (v : T) (err : E),
      rb.body = some v →
      write buf (CborItem.map (Response.encodeMap tagging rb.header)) = Except.ok buf1 →
      encT v = Except.error err →
      rb.encode write tagging encT buf = Except.error err) := by
  refine ⟨?_, ?_, ?_, ?_, ?_, ?_⟩
  · intro T E tagging encT rb buf v bi hb he
    simp [RequestBuilder.encode, appendWrite, hb, he, Bind.bind, Except.bind, Pure.pure,
      Except.pure]
  · intro T W E write tagging encT rb buf err hw
    simp [RequestBuilder.encode, hw, Bind.bind, Except.bind]
  · intro T W E write tagging encT rb buf buf1 v err hb hw he
    simp [RequestBuilder.encode, hb, hw, he, Bind.bind, Except.bind]
  · intro T E tagging encT rb buf v bi hb he
    simp [ResponseBuilder.encode, appendWrite, hb, he, Bind.bind, Except.bind, Pure.pure,
      Except.pure]
  · intro T W E write tagging encT rb buf err hw
    simp [ResponseBuilder.encode, hw, Bind.bind, Except.bind]
  · intro T W E write tagging encT rb buf buf1 v err hb hw he
    simp [ResponseBuilder.encode, hb, hw, he, Bind.bind, Except.bind]

/-- Witness for C5 at concrete builders: header-then-body order in the list
sink, a header write failure propagated, and a body encoding failure
propagated. -/
theorem c5_encode_order_witness :
    ((Request.builder ⟨1⟩ Method.Get "p").withBody (5 : Nat)).encode (appendWrite Nat)
        false (fun n => Except.ok (CborItem.uint n)) []
      = Except.ok
          [CborItem.map
            (Request.encodeMap false
              ((Request.builder ⟨1⟩ Method.Get "p").withBody (5 : Nat)).header),
           CborItem.uint 5] ∧
    ((Request.builder ⟨1⟩ Method.Get "p").withBody (5 : Nat)).encode
        (fun (_ : List CborItem) (_ : CborItem) =>
          (Except.error 7 : Except Nat (List CborItem)))
        false (fun n => Except.ok (CborItem.uint n)) []
      = Except.error 7 ∧
    ((Request.builder ⟨1⟩ Method.Get "p").withBody (5 : Nat)).encode (appendWrite Nat)
        false (fun _ => Except.error 3) []
      = Except.error 3 ∧
    ((Response.builder ⟨1⟩ ⟨2⟩ Status.Ok).withBody (5 : Nat)).encode (appendWrite Nat)
        false (fun n => Except.ok (CborItem.uint n)) []
      = Except.ok
          [CborItem.map
            (Response.encodeMap false
              ((Response.builder ⟨1⟩ ⟨2⟩ Status.Ok).withBody (5 : Nat)).header),
           CborItem.uint 5] :=
  ⟨c5_encode_order.1 Nat Nat false _ _ [] 5 _ rfl rfl,
   c5_encode_order.2.1 Nat (List CborItem) Nat _ false _ _ [] 7 rfl,
   c5_encode_order.2.2.1 Nat (List CborItem) Nat (appendWrite Nat) false _ _ []
     ([] ++ [CborItem.map
        (Request.encodeMap false
          ((Request.builder ⟨1⟩ Method.Get "p").withBody (5 : Nat)).header)])
     5 3 rfl rfl rfl,
   c5_encode_order.2.2.2.1 Nat Nat false _ _ [] 5 _ rfl rfl⟩

/-- Claim C8: a `Response` produced by `Response::builder(re, status)` or
`Response::new(re, status, b)` carries `re` as its correlation id and
`Some(status)` as its status, whatever fresh id was drawn. -/
theorem c8_response_correlation :
    ∀ (fresh re : Id) (st : Status) (hb : Bool),
      ((Response.new fresh re st hb).re = re ∧
       (Response.new fresh re st hb).status = some st) ∧
      ((Response.builder fresh re st).header.re = re ∧
       (Response.builder fresh re st).header.status = some st) :=
  fun fresh re st hb => ⟨⟨rfl, rfl⟩, ⟨rfl, rfl⟩⟩

/-- Claim C9: decoding a `CowStr`/`CowBytes` from a buffer holding the needed
bytes contiguously yields `is_borrowed() = true`; the explicit owning
conversion yields an independently owned value (not a view of the buffer,
hence unaffected by and not affecting it) with the same content. -/
theorem c9_borrow_preservation :
    (∀ (s : String) (c : CowStr),
      CowStr.decode (CborItem.text s) = Except.ok c →
      c.is_borrowed = true ∧ c.val.value = s) ∧
    (∀ (bs : List Nat) (c : CowBytes),
      CowBytes.decode (CborItem.bytes bs) = Except.ok c →
      c.is_borrowed = true ∧ c.val.value = bs) ∧
    (∀ c : CowStr,
      (c.to_owned).is_borrowed = false ∧ (c.to_owned).val.value = c.val.value) ∧
    (∀ c : CowBytes,
      (c.to_owned).is_borrowed = false ∧ (c.to_owned).val.value = c.val.value) := by
  refine ⟨?_, ?_, fun c => ⟨rfl, rfl⟩, fun c => ⟨rfl, rfl⟩⟩
  · intro s c h
    simp only [CowStr.decode, Except.ok.injEq] at h
    subst h
    exact ⟨rfl, rfl⟩
  · intro bs c h
    simp only [CowBytes.decode, Except.ok.injEq] at h
    subst h
    exact ⟨rfl, rfl⟩

/-- Witness for C9 at a concrete buffer content. -/
theorem c9_borrow_preservation_witness :
    (CowStr.mk (Cow.borrowed "hello")).is_borrowed = true ∧
    (CowStr.mk (Cow.borrowed "hello")).val.value = "hello" ∧
    (CowBytes.mk (Cow.borrowed [1, 2, 3])).is_borrowed = true :=
  ⟨(c9_borrow_preservation.1 "hello" ⟨Cow.borrowed "hello"⟩ rfl).1,
   (c9_borrow_preservation.1 "hello" ⟨Cow.borrowed "hello"⟩ rfl).2,
   (c9_borrow_preservation.2.1 [1, 2, 3] ⟨Cow.borrowed [1, 2, 3]⟩ rfl).1⟩

/-! ## Segment parsing lemmas -/

/-- Joining pieces with the separator between them; the inverse direction of
`splitnChar`. -/
def joinChar (sep : Char) : List (List Char) → List Char
  | [] => []
  | [x] => x
  | x :: y :: ys => x ++ sep :: joinChar sep (y :: ys)

theorem trimLeadingChar_eq_dropWhile (sep : Char) :
    ∀ cs : List Char, trimLeadingChar sep cs = cs.dropWhile (fun c => c == sep)
  | [] => rfl
  | c :: cs => by
    simp only [trimLeadingChar, List.dropWhile]
    by_cases hc : c = sep
    · simp [hc, trimLeadingChar_eq_dropWhile sep cs]
    · have hb : (c == sep) = false := by simp [hc]
      simp [hc, hb]

theorem dropWhile_eq_self_of_head (sep : Char) (cs : List Char)
    (h : cs.head? ≠ some sep) : cs.dropWhile (fun c => c == sep) = cs := by
  cases cs with
  | nil => rfl
  | cons c rest =>
    simp only [List.head?] at h
    have hc : c ≠ sep := fun hcs => h (by rw [hcs])
    have hb : (c == sep) = false := by simp [hc]
    simp [List.dropWhile, hb]

theorem splitFirst_eq (sep : Char) :
    ∀ (cs a b : List Char), splitFirst sep cs = some (a, b) → cs = a ++ sep :: b
  | [], a, b => by simp [splitFirst]
  | c :: rest, a, b => by
    intro h
    simp only [splitFirst] at h
    by_cases hc : c = sep
    · rw [if_pos hc] at h
      simp only [Option.some.injEq, Prod.mk.injEq] at h
      obtain ⟨ha, hb⟩ := h
      subst ha
      subst hb
      simp [hc]
    · rw [if_neg hc] at h
      cases hsf : splitFirst sep rest with
      | none => rw [hsf] at h; exact absurd h (by simp)
      | some ab =>
        obtain ⟨a2, b2⟩ := ab
        rw [hsf] at h
        simp only [Option.some.injEq, Prod.mk.injEq] at h
        obtain ⟨ha, hb⟩ := h
        subst ha
        subst hb
        have hr := splitFirst_eq sep rest a2 b2 hsf
        simp [hr]

theorem splitnChar_length_le (sep : Char) :
    ∀ (n : Nat) (cs : List Char), (splitnChar n sep cs).length ≤ n
  | 0, cs => by simp [splitnChar]
  | 1, cs => by simp [splitnChar]
  | (m+2), cs => by
    simp only [splitnChar]
    cases hsf : splitFirst sep cs with
    | none => simp
    | some ab =>
      obtain ⟨a, b⟩ := ab
      have hr := splitnChar_length_le sep (m+1) b
      simp only [List.length_cons, Nat.succ_eq_add_one]
      omega

theorem splitnChar_length_pos (sep : Char) :
    ∀ (n : Nat), 1 ≤ n → ∀ cs : List Char, 1 ≤ (splitnChar n sep cs).length
  | 0, h, _ => by omega
  | 1, _, cs => by simp [splitnChar]
  | (m+2), _, cs => by
    simp only [splitnChar]
    cases hsf : splitFirst sep cs with
    | none => simp
    | some ab =>
      obtain ⟨a, b⟩ := ab
      simp

theorem joinChar_splitnChar (sep : Char) :
    ∀ (n : Nat), 1 ≤ n → ∀ cs : List Char, joinChar sep (splitnChar n sep cs) = cs
  | 0, h, _ => by omega
  | 1, _, cs => by simp [splitnChar, joinChar]
  | (m+2), _, cs => by
    simp only [splitnChar]
    cases hsf : splitFirst sep cs with
    | none => simp [joinChar]
    | some ab =>
      obtain ⟨a, b⟩ := ab
      have hcs := splitFirst_eq sep cs a b hsf
      have h1 : 1 ≤ (splitnChar (m+1) sep b).length :=
        splitnChar_length_pos sep (m+1) (by omega) b
      cases hl : splitnChar (m+1) sep b with
      | nil => rw [hl] at h1; simp at h1
      | cons y ys =>
        have hj : joinChar sep (y :: ys) = b := by
          rw [← hl]
          exact joinChar_splitnChar sep (m+1) (by omega) b
        simp only [Nat.succ_eq_add_one]
        rw [hl]
        simp [joinChar, hj, hcs]

/-! ## Segment parsing claims -/

/-- Counterexample to Claim C6: on `"//a"` with `N = 2`, `Segments::parse`
strips BOTH leading slashes (`trim_start_matches`) and yields `["a"]`, while
the claim's single-strip reading predicts `["", "a"]`. -/
theorem c6_counterexample :
    Segments.parse 2 "//a" = ["a"] ∧
    Segments.parseSingleStrip 2 "//a" = ["", "a"] ∧
    ¬ Segments.parse 2 "//a" = Segments.parseSingleStrip 2 "//a" := by
  refine ⟨by decide, by decide, by decide⟩

/-- Claim C6 (amended): `Segments::<N>::parse(s)` strips ALL leading `'/'`
characters from `s`, then splits the remainder on `'/'` into at most `N`
pieces; separators beyond the `(N-1)`-th stay inside the final piece, so
joining the pieces with `'/'` recovers the trimmed remainder exactly. -/
theorem c6_parse_amended :
    ∀ (N : Nat) (s : String), 1 ≤ N →
      Segments.parse N s
          = (splitnChar N '/' (s.data.dropWhile (fun c => c == '/'))).map String.mk ∧
      (Segments.parse N s).length ≤ N ∧
      joinChar '/' ((Segments.parse N s).map String.data)
          = s.data.dropWhile (fun c => c == '/') := by
  intro N s hN
  have heq : Segments.parse N s
      = (splitnChar N '/' (s.data.dropWhile (fun c => c == '/'))).map String.mk := by
    by_cases h : s.data.head? = some '/'
    · simp [Segments.parse, h, trimLeadingChar_eq_dropWhile]
    · simp [Segments.parse, h, dropWhile_eq_self_of_head '/' s.data h]
  refine ⟨heq, ?_, ?_⟩
  · rw [heq]
    simpa using splitnChar_length_le '/' N _
  · rw [heq]
    have hmm : ((splitnChar N '/' (s.data.dropWhile (fun c => c == '/'))).map
          String.mk).map String.data
        = splitnChar N '/' (s.data.dropWhile (fun c => c == '/')) := by
      simp [List.map_map, Function.comp_def]
    rw [hmm]
    exact joinChar_splitnChar '/' N hN _

/-- Witness for the amended C6 at the counterexample input itself. -/
theorem c6_parse_amended_witness :
    Segments.parse 2 "//a"
        = (splitnChar 2 '/' ("//a".data.dropWhile (fun c => c == '/'))).map String.mk ∧
    (Segments.parse 2 "//a").length ≤ 2 ∧
    joinChar '/' ((Segments.parse 2 "//a").map String.data)
        = "//a".data.dropWhile (fun c => c == '/') :=
  c6_parse_amended 2 "//a" (by decide)

/-- Claim C7: the three concrete parses from the spec. -/
theorem c7_parse_examples :
    Segments.parse 2 "/a/b/c" = ["a", "b/c"] ∧
    Segments.parse 3 "a" = ["a"] ∧
    Segments.parse 1 "/" = [""] := by
  refine ⟨by decide, by decide, by decide⟩

/-- Claim C10: for `N ≥ 1`, `Segments::<N>::parse(s)` yields at least one and
at most `N` segments. -/
theorem c10_segment_count :
    ∀ (s : String) (N : Nat), 1 ≤ N →
      1 ≤ (Segments.parse N s).length ∧ (Segments.parse N s).length ≤ N := by
  intro s N hN
  constructor
  · simpa [Segments.parse] using splitnChar_length_pos '/' N hN _
  · simpa [Segments.parse] using splitnChar_length_le '/' N _

/-- Witness for C10 at a concrete path and capacity. -/
theorem c10_segment_count_witness :
    1 ≤ (Segments.parse 3 "/a/b").length ∧ (Segments.parse 3 "/a/b").length ≤ 3 :=
  c10_segment_count "/a/b" 3 (by decide)

end OckamApi
